import Mathlib

/-!
Shallow embedding of the Dexcaliburn Frida instrumentation module
(`dexcaliburn/frida-scripts/index.ts`) and proofs about its
interception and bookkeeping engine: the xref table fold of
`captureInvokeCalls`, the `rundata` snapshot handler, the hook-config
parser `fetchHookConfig`, the class-loader capture hooks
(`fileClassLoaderHook`, `memoryClassLoaderHookSetup`), and the
registry-driven installation loop `overrideClassLoaderInit`.

JavaScript strings are embedded as `List Char`; `String.prototype.split`
with a single-character separator, `Array.prototype.join`, and
`String.prototype.trim` are embedded below and used exactly where the
source uses them.
-/

namespace Dexcaliburn

/-- JS strings, embedded as lists of characters. -/
abbrev Str := List Char

/-- Convenience injection from Lean string literals. -/
def str (s : String) : Str := s.toList

/-- Whitespace as removed by `String.prototype.trim` (the characters that
matter for this development: space, tab, newline, carriage return, vertical
tab, form feed). -/
def isWS (c : Char) : Bool :=
  c == ' ' || c == '\t' || c == '\n' || c == '\r' || c == '\x0b' || c == '\x0c'

/-- `String.prototype.trim`: strip whitespace from both ends. -/
def trim (s : Str) : Str :=
  ((s.dropWhile isWS).reverse.dropWhile isWS).reverse

/-- Helper for `splitOnChar`: returns the first field and the remaining
fields of splitting on `sep`. -/
def splitOnCharAux (sep : Char) : Str → Str × List Str
  | [] => ([], [])
  | c :: cs =>
    let r := splitOnCharAux sep cs
    if c = sep then ([], r.1 :: r.2) else (c :: r.1, r.2)

/-- `String.prototype.split` with a single-character separator:
`"".split(c) = [""]`, `"a.b".split('.') = ["a","b"]`, etc. -/
def splitOnChar (sep : Char) (s : Str) : List Str :=
  (splitOnCharAux sep s).1 :: (splitOnCharAux sep s).2

/-- `Array.prototype.join` with a single-character separator. -/
def joinSep (sep : Char) : List Str → Str
  | [] => []
  | [s] => s
  | s :: rest => s ++ sep :: joinSep sep rest

/-- `dexPath.split('/').slice(-1)[0]` — the last `/`-separated segment of a
path, as computed by `fileClassLoaderHook`. -/
def basename (p : Str) : Str :=
  (splitOnChar '/' p).getLastD []

/-- Substring containment test (needle occurs somewhere in the haystack). -/
def strContains (needle : Str) : Str → Bool
  | [] => needle.isPrefixOf ([] : Str)
  | c :: cs => needle.isPrefixOf (c :: cs) || strContains needle cs

/-- The test `filename.match(/.*\.java/)` of `captureInvokeCalls`: the
unanchored regex `.*\.java` succeeds exactly when the string contains
`".java"` as a substring (the `.*` may match the empty string at the
position where `".java"` occurs). -/
def matchesJavaRegex (filename : Str) : Bool :=
  strContains (str ".java") filename

/-! ## Xref data model (the `runData.xrefs` entries of `index.ts`) -/

/-- The `LocationSource` enum of `index.ts` (`'debug'` / `'binary'`). -/
inductive LocationSource
  | debug
  | binary
deriving DecidableEq, Repr

/-- The `method` component of an xref entry. -/
structure MethodInfo where
  className : Str
  methodName : Str
  prototype : Str
deriving DecidableEq, Repr

/-- The `location` component of an xref entry. -/
structure Location where
  callingMethod : Str
  position : Int
  source : LocationSource
deriving DecidableEq, Repr

/-- One entry of `runData.xrefs`. -/
structure Xref where
  method : MethodInfo
  location : Location
  count : Nat
deriving DecidableEq, Repr

/-- The 6-conjunct key comparison used by `findIndex` in
`captureInvokeCalls` (lines 134–140 of `index.ts`). -/
def xrefKeyMatches (x : Xref) (m : MethodInfo) (l : Location) : Bool :=
  decide (x.method.className = m.className)
  && decide (x.method.methodName = m.methodName)
  && decide (x.method.prototype = m.prototype)
  && decide (x.location.callingMethod = l.callingMethod)
  && decide (x.location.position = l.position)
  && decide (x.location.source = l.source)

/-- The fold step of `captureInvokeCalls` (lines 134–153): `findIndex` over
the table with the 6-field key; if absent, push a record with count 1,
otherwise increment the count of the record at the found index. -/
def recordXref (xs : List Xref) (m : MethodInfo) (l : Location) : List Xref :=
  let i := xs.findIdx (fun x => xrefKeyMatches x m l)
  if h : i < xs.length then
    let old := xs.get ⟨i, h⟩
    xs.set i { old with count := old.count + 1 }
  else
    xs ++ [⟨m, l, 1⟩]

/-- One reflective-invocation observation: the extracted method identity and
the derived call location. -/
abbrev Observation := MethodInfo × Location

/-- The xref table resulting from folding a sequence of reflective
invocations into the initially empty `runData.xrefs`. -/
def processInvocations (obs : List Observation) : List Xref :=
  obs.foldl (fun xs p => recordXref xs p.1 p.2) []

/-- Number of table records carrying a given key. -/
def keyCount (xs : List Xref) (m : MethodInfo) (l : Location) : Nat :=
  xs.countP (fun x => xrefKeyMatches x m l)

/-- Sum of the `count` fields of the table records carrying a given key. -/
def keyTally (xs : List Xref) (m : MethodInfo) (l : Location) : Nat :=
  ((xs.filter (fun x => xrefKeyMatches x m l)).map Xref.count).sum

/-- Number of observations in a sequence carrying a given key. -/
def occ (obs : List Observation) (m : MethodInfo) (l : Location) : Nat :=
  obs.countP (fun p => decide (p.1 = m) && decide (p.2 = l))

/-! ## Session state and the protocol handlers -/

/-- The module-global `runData` of `index.ts`: captured dex ids and the
xref table. -/
structure RunData where
  dexFiles : List Str
  xrefs : List Xref
deriving DecidableEq, Repr

/-- Messages sent by the module over the Frida channel (`send` calls of
`index.ts`); binary payloads accompany a `dex` record out-of-band and are
not part of the tagged record. -/
inductive OutMessage
  | setup
  | dex (filename : Str)
  | rundata (d : RunData)
deriving DecidableEq, Repr

/-- Session-level events: a reflective invocation folded by
`captureInvokeCalls`, a bytecode capture pushed by a class-loader hook,
and an incoming `rundata` request handled by `setupExitHandler`. -/
inductive Event
  | invoke (m : MethodInfo) (l : Location)
  | dexCapture (filename : Str)
  | rundataReq

/-- One session step: how each event mutates `runData` and what it sends.
The `rundataReq` case is the body of the `recv('rundata', ...)` handler
installed by `setupExitHandler`: `send({id: "rundata", runData: runData})`
with no mutation of `runData`. -/
def sessionStep (s : RunData) : Event → RunData × List OutMessage
  | .invoke m l => ({ s with xrefs := recordXref s.xrefs m l }, [])
  | .dexCapture fn => ({ s with dexFiles := s.dexFiles ++ [fn] }, [.dex fn])
  | .rundataReq => (s, [.rundata s])

/-- Run a sequence of session events, collecting all sent messages. -/
def runEvents (s : RunData) : List Event → RunData × List OutMessage
  | [] => (s, [])
  | e :: es =>
    let r := sessionStep s e
    let rest := runEvents r.1 es
    (rest.1, r.2 ++ rest.2)

/-! ## Hook configuration (`fetchHookConfig`) -/

/-- The module-global `hookedMethods` object: class name → method names. -/
abbrev HookConfig := List (Str × List Str)

/-- `if (className in hookedMethods) push(methodName) else
hookedMethods[className] = [methodName]`. -/
def addHook (cfg : HookConfig) (className methodName : Str) : HookConfig :=
  if cfg.any (fun p => decide (p.1 = className)) then
    cfg.map (fun p => if p.1 = className then (p.1, p.2 ++ [methodName]) else p)
  else
    cfg ++ [(className, [methodName])]

/-- The `hooks`-payload parser of `fetchHookConfig` (lines 48–62): an empty
payload yields no hooks; otherwise the trimmed payload is split into lines,
each line is split on `'.'`, the class name is everything but the last
component rejoined with `'.'`, and the method name the last component. -/
def fetchHookConfig (payload : Str) : HookConfig :=
  if payload = [] then []
  else
    (splitOnChar '\n' (trim payload)).foldl
      (fun cfg line =>
        let parts := splitOnChar '.' line
        let className := joinSep '.' parts.dropLast
        let methodName := parts.getLastD []
        addHook cfg className methodName)
      []

/-- Property lookup `hookedMethods[className]` (used when the `loadClass`
hook checks `className in hookedMethods`). -/
def lookupHooks (cfg : HookConfig) (className : Str) : List Str :=
  match cfg.find? (fun p => decide (p.1 = className)) with
  | some p => p.2
  | none => []

/-! ## Interception handlers

A hooked original operation is modelled as a state transformer
`args → A → A × Except ε V` over an abstract application state `A`: it may
return a value or raise an application-level error. An installed handler
may additionally raise a JavaScript-level error of its own. -/

/-- Errors that can escape an installed handler: a `TypeError` from calling
a method on `null`/`undefined`, an IO error from reading a bytecode file,
or an error raised by the original hooked operation and propagated. -/
inductive JSErr (ε : Type)
  | typeError
  | ioError
  | thrown (e : ε)
deriving DecidableEq, Repr

/-- A result of the original operation, viewed as a handler result. -/
def liftResult {ε V : Type} : Except ε V → Except (JSErr ε) V
  | .ok v => .ok v
  | .error e => .error (.thrown e)

/-- Everything observable about one run of an installed handler: the
application state after the handler returns, the value or error the
application sees, the module state `runData` afterwards, and the protocol
messages sent. -/
structure HandlerRes (A V ε : Type) where
  app : A
  result : Except (JSErr ε) V
  data : RunData
  out : List OutMessage

/-- Classification of a stack frame's reported file name by
`captureInvokeCalls`: `filename.match(/.*\.java/) ? DEBUG : BINARY`. -/
def sourceOfFilename (filename : Str) : LocationSource :=
  if matchesJavaRegex filename then .debug else .binary

/-- A `java.lang.StackTraceElement` as consumed by `captureInvokeCalls`:
`getFileName` may return `null`. -/
structure Frame where
  methodName : Str
  fileName : Option Str
  lineNumber : Int

/-- The `invoke.implementation` installed by `captureInvokeCalls`
(lines 100–156): extract the method identity (passed in here as `m`, the
result of the side-effect-free reflection accessors), select `trace[3]` as
the caller frame, derive the call location, fold it into the xref table,
then call through to the original `invoke`. Calling
`StackTraceElement.getMethodName` on an absent frame, or `.match` on a
`null` file name, raises a `TypeError` before the call-through, leaving
both the application state and the xref table untouched. -/
def captureInvokeCalls {A V ε Args : Type} (trace : List Frame)
    (m : MethodInfo) (invoke : Args → A → A × Except ε V) (args : Args)
    (a : A) (s : RunData) : HandlerRes A V ε :=
  match trace.get? 3 with
  | none => ⟨a, .error .typeError, s, []⟩
  | some frame =>
    match frame.fileName with
    | none => ⟨a, .error .typeError, s, []⟩
    | some filename =>
      let source := sourceOfFilename filename
      let loc : Location := ⟨frame.methodName, frame.lineNumber, source⟩
      let s' := { s with xrefs := recordXref s.xrefs m loc }
      let r := invoke args a
      ⟨r.1, liftResult r.2, s', []⟩

/-- The `loadClass` implementation installed by
`overrideloadClassForDynHooking` (lines 77–88): call through first, then —
only on normal return — dynamically hook the methods configured for the
just-loaded class (hook installation is invisible to the application state
and to the returned value). Returns the transparent application outcome
together with the method names whose dynamic hooking is attempted. -/
def loadClassHook {A V ε : Type} (cfg : HookConfig)
    (loadClass : Str → A → A × Except ε V) (className : Str) (a : A) :
    (A × Except (JSErr ε) V) × List Str :=
  let r := loadClass className a
  match r.2 with
  | .error e => ((r.1, .error (.thrown e)), [])
  | .ok v => ((r.1, .ok v), lookupHooks cfg className)

/-- Modelled from the spec: `sha256_fromFilePath` (imported from the
repository's `utils.ts`, which is not part of the provided sources) reads
the bytes of the file at the given path via the `readBytes` capability —
failing with an IOError if the read fails — and returns the content hash of
those bytes via the `hashBytes` capability. -/
def sha256_fromFilePath (readBytes : Str → Option (List Nat))
    (hashBytes : List Nat → Str) (path : Str) : Option Str :=
  (readBytes path).map hashBytes

/-- Modelled from the spec: `sha256_fromJavaBuffer` (imported from the
repository's `utils.ts`, which is not part of the provided sources) returns
the content hash of the buffer's bytes via the `hashBytes` capability. -/
def sha256_fromJavaBuffer (hashBytes : List Nat → Str) (buffer : List Nat) :
    Str :=
  hashBytes buffer

/-- The `$init` implementation produced by `fileClassLoaderHook`
(lines 229–239): the first constructor argument is the dex path; compute
`<last path segment>-<content hash>`, send the `dex` event with the file's
bytes, push the id onto `runData.dexFiles`, then call through to the
original constructor. There is no exception handling: if reading the file
fails, the handler aborts before sending, recording, or calling through. -/
def fileClassLoaderHook {A V ε Rest : Type}
    (readBytes : Str → Option (List Nat)) (hashBytes : List Nat → Str)
    (init_method : Str × Rest → A → A × Except ε V) (args : Str × Rest)
    (a : A) (s : RunData) : HandlerRes A V ε :=
  let dexPath := args.1
  match sha256_fromFilePath readBytes hashBytes dexPath with
  | none => ⟨a, .error .ioError, s, []⟩
  | some h =>
    let filename := basename dexPath ++ '-' :: h
    let s' := { s with dexFiles := s.dexFiles ++ [filename] }
    let r := init_method args a
    ⟨r.1, liftResult r.2, s', [.dex filename]⟩

/-- The capture loop shared by the memory class-loader hooks
(lines 214–220): for each buffer, derive `memory-<hash>` via
`sha256_fromJavaBuffer`, send the `dex` event with the buffer's bytes, and
push the id onto `runData.dexFiles`. -/
def memoryCapture (hashBytes : List Nat → Str) :
    List (List Nat) → RunData → RunData × List OutMessage
  | [], s => (s, [])
  | b :: bs, s =>
    let filename := str "memory-" ++ sha256_fromJavaBuffer hashBytes b
    let r := memoryCapture hashBytes bs
      { s with dexFiles := s.dexFiles ++ [filename] }
    (r.1, .dex filename :: r.2)

/-- The `$init` implementation produced by
`memoryClassLoaderHookSetup(true)` (lines 205–224): the first constructor
argument is an array of byte buffers; each element is captured
independently, then the original constructor is called through. -/
def memoryClassLoaderHookArray {A V ε Rest : Type}
    (hashBytes : List Nat → Str)
    (init_method : List (List Nat) × Rest → A → A × Except ε V)
    (args : List (List Nat) × Rest) (a : A) (s : RunData) :
    HandlerRes A V ε :=
  let cap := memoryCapture hashBytes args.1 s
  let r := init_method args a
  ⟨r.1, liftResult r.2, cap.1, cap.2⟩

/-- The `$init` implementation produced by
`memoryClassLoaderHookSetup(false)` (lines 205–224): the first constructor
argument is a single byte buffer; it is wrapped into a one-element array
(`bufferArray = [bufferArray]`) and captured, then the original
constructor is called through. -/
def memoryClassLoaderHookSingle {A V ε Rest : Type}
    (hashBytes : List Nat → Str)
    (init_method : List Nat × Rest → A → A × Except ε V)
    (args : List Nat × Rest) (a : A) (s : RunData) : HandlerRes A V ε :=
  let cap := memoryCapture hashBytes [args.1] s
  let r := init_method args a
  ⟨r.1, liftResult r.2, cap.1, cap.2⟩

/-- The origin label of a FILE-strategy capture id: the part of
`<basename>-<hash>` before the hash, i.e. the last `/`-separated segment of
the dex path (from `fileClassLoaderHook`). -/
def fileOriginLabel (dexPath : Str) : Str := basename dexPath

/-- The origin label of a MEMORY-strategy capture id: the fixed literal
`memory` (from `memoryClassLoaderHookSetup`). -/
def memoryOriginLabel : Str := str "memory"

/-! ## Loader registry and the installation loop
(`overrideClassLoaderInit`, `tryOverride`) -/

/-- Which default implementation the registry assigns to a descriptor. -/
inductive HookKind
  | file
  | memoryArray
  | memorySingle
deriving DecidableEq, Repr

/-- One entry of the `registry` array (lines 251–288): the (possibly
unresolved) class-loader handle returned by `tryJavaUse`, the constructor
overload parameter list, the assigned hook, and the debug string used in
skip diagnostics. A resolved class-loader handle is represented by its
name. -/
structure LoaderDescriptor where
  classLoader : Option Str
  argsList : List Str
  hookKind : HookKind
  debugString : Str
deriving DecidableEq, Repr

/-- The static `registry` of `overrideClassLoaderInit`, parameterized by
the `tryJavaUse` capability (which yields `null` for loader types
unavailable on the current runtime). -/
def registry (tryJavaUse : Str → Option Str) : List LoaderDescriptor :=
  [ ⟨tryJavaUse (str "dalvik.system.BaseDexClassLoader"),
     [str "java.lang.String", str "java.io.File", str "java.lang.String",
      str "java.lang.ClassLoader"],
     .file,
     str "BaseDexClassLoader(String dexPath, File optimizedDirectory, String librarySearchPath, ClassLoader parent)"⟩,
    ⟨tryJavaUse (str "dalvik.system.InMemoryDexClassLoader"),
     [str "[java.nio.ByteBuffer;", str "java.lang.String",
      str "java.lang.ClassLoader"],
     .memoryArray,
     str "InMemoryDexClassLoader(ByteBuffer[] dexBuffers, String librarySearchPath, ClassLoader parent)"⟩,
    ⟨tryJavaUse (str "dalvik.system.InMemoryDexClassLoader"),
     [str "[java.nio.ByteBuffer", str "java.lang.ClassLoader"],
     .memoryArray,
     str "InMemoryDexClassLoader(ByteBuffer[] dexBuffers, ClassLoader parent)"⟩,
    ⟨tryJavaUse (str "dalvik.system.InMemoryDexClassLoader"),
     [str "java.nio.ByteBuffer", str "java.lang.ClassLoader"],
     .memorySingle,
     str "InMemoryDexClassLoader(ByteBuffer dexBuffer, ClassLoader parent)"⟩,
    ⟨tryJavaUse (str "dalvik.system.DexClassLoader"),
     [str "java.lang.String", str "java.lang.String", str "java.lang.String",
      str "java.lang.ClassLoader"],
     .file,
     str "DexClassLoader(String dexPath, String optimizedDirectory, String librarySearchPath, ClassLoader parent)"⟩,
    ⟨tryJavaUse (str "dalvik.system.PathClassLoader"),
     [str "java.lang.String", str "java.lang.ClassLoader"],
     .file,
     str "PathClassLoader(String dexPath, ClassLoader parent)"⟩,
    ⟨tryJavaUse (str "dalvik.system.DelegateLastClassLoader"),
     [str "java.lang.String", str "java.lang.ClassLoader"],
     .file,
     str "DelegateLastClassLoader(String dexPath, ClassLoader parent)"⟩,
    ⟨tryJavaUse (str "dalvik.system.DelegateLastClassLoader"),
     [str "java.lang.String", str "java.lang.String",
      str "java.lang.ClassLoader"],
     .file,
     str "DelegateLastClassLoader(String dexPath, String librarySearchPath, ClassLoader parent)"⟩,
    ⟨tryJavaUse (str "dalvik.system.DelegateLastClassLoader"),
     [str "java.lang.String", str "java.lang.String",
      str "java.lang.ClassLoader", str "boolean"],
     .file,
     str "DelegateLastClassLoader(String dexPath, String librarySearchPath, ClassLoader parent, boolean delegateResourceLoading)"⟩ ]

/-- The body passed to `tryOverride` for one registry descriptor
(lines 291–295): if the class loader was not resolved, return without
installing; otherwise resolve the named constructor overload — throwing
(modelled as `Except.error`) if the overload is unavailable on the current
runtime — and install the hook. `overloadAvail cl argsList` says whether
`cl.$init.overload(...argsList)` resolves. `some ()` means a hook was
installed, `none` means the body returned early. -/
def attemptInstall (overloadAvail : Str → List Str → Bool)
    (d : LoaderDescriptor) : Except Unit (Option Unit) :=
  match d.classLoader with
  | none => .ok none
  | some cl =>
    if overloadAvail cl d.argsList then .ok (some ()) else .error ()

/-- `tryOverride` (lines 182–188): run the installation body, catching any
error and turning it into the diagnostic log
`"Unable to override " + loader_prototype`. -/
def tryOverride {α : Type} (body : Except Unit α) (loader_prototype : Str) :
    Option α × List Str :=
  match body with
  | .ok v => (some v, [])
  | .error _ => (none, [str "Unable to override " ++ loader_prototype])

/-- The registration loop of `overrideClassLoaderInit` (lines 290–296):
for each descriptor, run its installation body under `tryOverride`.
Returns the per-descriptor outcomes (`none` = exception caught,
`some none` = body returned early on a null loader, `some (some ())` =
hook installed) and the accumulated diagnostic logs. -/
def overrideClassLoaderInit (overloadAvail : Str → List Str → Bool) :
    List LoaderDescriptor → List (Option (Option Unit)) × List Str
  | [] => ([], [])
  | d :: ds =>
    let r := tryOverride (attemptInstall overloadAvail d) d.debugString
    let rest := overrideClassLoaderInit overloadAvail ds
    (r.1 :: rest.1, r.2 ++ rest.2)

/-! ## Lemmas about the string embedding -/

theorem splitOnCharAux_of_not_mem (sep : Char) (s : Str) (h : sep ∉ s) :
    splitOnCharAux sep s = (s, []) := by
  induction s with
  | nil => rfl
  | cons c cs ih =>
    have hc : ¬c = sep := fun e => h (e ▸ List.mem_cons_self c cs)
    simp only [splitOnCharAux, ih (fun hm => h (List.mem_cons_of_mem _ hm)),
      if_neg hc]

theorem splitOnChar_of_not_mem (sep : Char) (s : Str) (h : sep ∉ s) :
    splitOnChar sep s = [s] := by
  simp [splitOnChar, splitOnCharAux_of_not_mem sep s h]

theorem splitOnCharAux_append_sep (sep : Char) (xs ys : Str) (h : sep ∉ ys) :
    splitOnCharAux sep (xs ++ sep :: ys) =
      ((splitOnCharAux sep xs).1, (splitOnCharAux sep xs).2 ++ [ys]) := by
  induction xs with
  | nil => simp [splitOnCharAux, splitOnCharAux_of_not_mem sep ys h]
  | cons c cs ih =>
    simp only [List.cons_append, splitOnCharAux]
    by_cases hc : c = sep <;> simp [hc, ih]

theorem splitOnChar_append_sep (sep : Char) (xs ys : Str) (h : sep ∉ ys) :
    splitOnChar sep (xs ++ sep :: ys) = splitOnChar sep xs ++ [ys] := by
  simp [splitOnChar, splitOnCharAux_append_sep sep xs ys h]

theorem joinSep_cons_cons (sep c : Char) (s : Str) (rest : List Str) :
    joinSep sep ((c :: s) :: rest) = c :: joinSep sep (s :: rest) := by
  cases rest <;> simp [joinSep]

theorem joinSep_splitOnChar (sep : Char) (s : Str) :
    joinSep sep (splitOnChar sep s) = s := by
  induction s with
  | nil => rfl
  | cons c cs ih =>
    by_cases hc : c = sep
    · subst hc
      simp only [splitOnChar, splitOnCharAux, if_pos rfl]
      simpa [joinSep] using ih
    · simp only [splitOnChar, splitOnCharAux, if_neg hc]
      rw [joinSep_cons_cons]
      exact congrArg (c :: ·) ih

theorem dropWhile_ws_cons (c : Char) (cs : Str) (h : isWS c = false) :
    (c :: cs).dropWhile isWS = c :: cs := by
  simp [List.dropWhile_cons, h]

theorem trim_of_dropWhile (s : Str) (h1 : s.dropWhile isWS = s)
    (h2 : s.reverse.dropWhile isWS = s.reverse) : trim s = s := by
  simp [trim, h1, h2]

/-! ## Lemmas about the xref table fold -/

theorem xrefKeyMatches_iff (x : Xref) (m : MethodInfo) (l : Location) :
    xrefKeyMatches x m l = true ↔ x.method = m ∧ x.location = l := by
  obtain ⟨⟨xc, xn, xp⟩, ⟨xcm, xpos, xsrc⟩, xcount⟩ := x
  obtain ⟨mc, mn, mp⟩ := m
  obtain ⟨lc, lp, ls⟩ := l
  simp [xrefKeyMatches, MethodInfo.mk.injEq, Location.mk.injEq, and_assoc]

theorem xrefKeyMatches_setCount (x : Xref) (n : Nat) (m : MethodInfo)
    (l : Location) :
    xrefKeyMatches { x with count := n } m l = xrefKeyMatches x m l := rfl

theorem recordXref_nil (m : MethodInfo) (l : Location) :
    recordXref [] m l = [⟨m, l, 1⟩] := rfl

theorem recordXref_cons_match (x : Xref) (xs : List Xref) (m : MethodInfo)
    (l : Location) (h : xrefKeyMatches x m l = true) :
    recordXref (x :: xs) m l = { x with count := x.count + 1 } :: xs := by
  unfold recordXref
  rw [List.findIdx_cons]
  simp [h]

theorem recordXref_cons_nomatch (x : Xref) (xs : List Xref) (m : MethodInfo)
    (l : Location) (h : xrefKeyMatches x m l = false) :
    recordXref (x :: xs) m l = x :: recordXref xs m l := by
  unfold recordXref
  rw [List.findIdx_cons]
  simp only [h, cond_false]
  by_cases hlt : xs.findIdx (fun y => xrefKeyMatches y m l) < xs.length
  · rw [dif_pos (by simpa using Nat.succ_lt_succ hlt), dif_pos hlt]
    simp
  · rw [dif_neg (by simpa using fun hx => hlt (Nat.lt_of_succ_lt_succ hx)),
      dif_neg hlt]
    simp

theorem keyCount_cons (x : Xref) (xs : List Xref) (m : MethodInfo)
    (l : Location) :
    keyCount (x :: xs) m l =
      keyCount xs m l + (if xrefKeyMatches x m l then 1 else 0) := by
  simp [keyCount, List.countP_cons]

theorem keyTally_cons (x : Xref) (xs : List Xref) (m : MethodInfo)
    (l : Location) :
    keyTally (x :: xs) m l =
      (if xrefKeyMatches x m l then x.count else 0) + keyTally xs m l := by
  by_cases h : xrefKeyMatches x m l <;> simp [keyTally, List.filter_cons, h]

/-- A record matching one key does not match a different key. -/
theorem not_match_of_match_ne (x : Xref) (m l m' l')
    (hx : xrefKeyMatches x m l = true) (hne : ¬(m' = m ∧ l' = l)) :
    xrefKeyMatches x m' l' = false := by
  rw [xrefKeyMatches_iff] at hx
  by_contra hb
  have := (xrefKeyMatches_iff x m' l').mp (by simpa using hb)
  exact hne ⟨hx.1 ▸ this.1.symm ▸ rfl, hx.2 ▸ this.2.symm ▸ rfl⟩

theorem keyCount_recordXref (xs : List Xref) (m : MethodInfo) (l : Location)
    (m' : MethodInfo) (l' : Location) :
    keyCount (recordXref xs m l) m' l' =
      if m' = m ∧ l' = l then
        (if keyCount xs m l = 0 then 1 else keyCount xs m l)
      else keyCount xs m' l' := by
  induction xs with
  | nil =>
    rw [recordXref_nil]
    by_cases hk : m' = m ∧ l' = l
    · rw [hk.1, hk.2]
      simp [keyCount, List.countP_cons, xrefKeyMatches_iff]
    · have hx : xrefKeyMatches ⟨m, l, 1⟩ m' l' = false := by
        rw [Bool.eq_false_iff]
        intro hb
        rw [xrefKeyMatches_iff] at hb
        exact hk ⟨hb.1.symm, hb.2.symm⟩
      simp [keyCount, List.countP_cons, hx, hk]
  | cons x xs ih =>
    by_cases hx : xrefKeyMatches x m l
    · rw [recordXref_cons_match x xs m l hx]
      by_cases hk : m' = m ∧ l' = l
      · rw [hk.1, hk.2]
        rw [keyCount_cons, keyCount_cons, xrefKeyMatches_setCount]
        simp [hx]
      · have hx' : xrefKeyMatches x m' l' = false :=
          not_match_of_match_ne x m l m' l' hx hk
        simp [keyCount_cons, xrefKeyMatches_setCount, hx', hk]
    · have hxf : xrefKeyMatches x m l = false := by simpa using hx
      rw [recordXref_cons_nomatch x xs m l hxf, keyCount_cons, ih]
      by_cases hk : m' = m ∧ l' = l
      · rw [hk.1, hk.2]
        simp [keyCount_cons, hxf]
      · simp [keyCount_cons, hk]

theorem keyTally_recordXref (xs : List Xref) (m : MethodInfo) (l : Location)
    (m' : MethodInfo) (l' : Location) :
    keyTally (recordXref xs m l) m' l' =
      keyTally xs m' l' + (if m' = m ∧ l' = l then 1 else 0) := by
  induction xs with
  | nil =>
    rw [recordXref_nil]
    by_cases hk : m' = m ∧ l' = l
    · rw [hk.1, hk.2]
      simp [keyTally, List.filter_cons, xrefKeyMatches_iff]
    · have hx : xrefKeyMatches ⟨m, l, 1⟩ m' l' = false := by
        rw [Bool.eq_false_iff]
        intro hb
        rw [xrefKeyMatches_iff] at hb
        exact hk ⟨hb.1.symm, hb.2.symm⟩
      simp [keyTally, List.filter_cons, hx, hk]
  | cons x xs ih =>
    by_cases hx : xrefKeyMatches x m l
    · rw [recordXref_cons_match x xs m l hx]
      by_cases hk : m' = m ∧ l' = l
      · rw [hk.1, hk.2]
        rw [keyTally_cons, keyTally_cons, xrefKeyMatches_setCount]
        simp only [hx, if_pos rfl]
        simp
        omega
      · have hx' : xrefKeyMatches x m' l' = false :=
          not_match_of_match_ne x m l m' l' hx hk
        rw [keyTally_cons, keyTally_cons, xrefKeyMatches_setCount]
        simp [hx', hk]
    · have hxf : xrefKeyMatches x m l = false := by simpa using hx
      rw [recordXref_cons_nomatch x xs m l hxf, keyTally_cons, ih,
        keyTally_cons]
      omega

theorem processInvocations_concat (obs : List Observation)
    (p : Observation) :
    processInvocations (obs ++ [p]) =
      recordXref (processInvocations obs) p.1 p.2 := by
  simp [processInvocations, List.foldl_append]

theorem occ_append (obs extra : List Observation) (m : MethodInfo)
    (l : Location) :
    occ (obs ++ extra) m l = occ obs m l + occ extra m l := by
  simp [occ, List.countP_append]

theorem occ_singleton_pos (p : Observation) (m : MethodInfo) (l : Location)
    (h : p.1 = m ∧ p.2 = l) : occ [p] m l = 1 := by
  simp [occ, List.countP_cons, h.1, h.2]

theorem occ_singleton_neg (p : Observation) (m : MethodInfo) (l : Location)
    (h : ¬(p.1 = m ∧ p.2 = l)) : occ [p] m l = 0 := by
  simp only [occ, List.countP_cons, List.countP_nil, Nat.zero_add]
  rw [if_neg (by simpa using h)]

theorem keyCount_keyTally_processInvocations (obs : List Observation)
    (m : MethodInfo) (l : Location) :
    keyCount (processInvocations obs) m l = min 1 (occ obs m l) ∧
    keyTally (processInvocations obs) m l = occ obs m l := by
  induction obs using List.reverseRecOn with
  | nil => simp [processInvocations, keyCount, keyTally, occ]
  | append_singleton obs p ih =>
    rw [processInvocations_concat, occ_append,
      keyCount_recordXref, keyTally_recordXref]
    obtain ⟨ih1, ih2⟩ := ih
    by_cases hk : m = p.1 ∧ l = p.2
    · rw [if_pos hk, if_pos hk,
        occ_singleton_pos p m l ⟨hk.1.symm, hk.2.symm⟩,
        ← hk.1, ← hk.2, ih1, ih2]
      refine ⟨?_, rfl⟩
      by_cases h0 : occ obs m l = 0
      · simp [h0]
      · have h1 : min 1 (occ obs m l) = 1 := by omega
        have h2 : min 1 (occ obs m l + 1) = 1 := by omega
        rw [h1, h2, if_neg (by omega)]
    · have hk' : ¬(p.1 = m ∧ p.2 = l) := fun hc => hk ⟨hc.1.symm, hc.2.symm⟩
      rw [if_neg hk, if_neg hk, occ_singleton_neg p m l hk', ih1, ih2]
      simp

theorem runEvents_insert_rundata (s : RunData) (es1 es2 : List Event) :
    (runEvents s (es1 ++ Event.rundataReq :: es2)).1 =
      (runEvents s (es1 ++ es2)).1 := by
  induction es1 generalizing s with
  | nil => simp [runEvents, sessionStep]
  | cons e es ih => simp [runEvents, ih]

/-! ## Claim theorems -/

/-- Claim C1: for every sequence of reflective invocations, the xref table
built by the fold of `captureInvokeCalls` contains exactly one record per
distinct observed 6-field key (`min 1` of the key's occurrence count, i.e.
one when observed, zero when not), and the accumulated `count` over records
with that key equals the number of invocations observed with that key.
Folding one more invocation of a key adds exactly 1 to that key's
accumulated count — inserting a record with count 1 when the key is absent
(`keyCount = 0`) and keeping exactly one record otherwise — and the
accumulated count never decreases as further invocations are processed. -/
theorem xref_table_one_record_count_eq_occurrences
    (obs extra : List Observation) (t : List Xref)
    (m : MethodInfo) (l : Location) :
    keyCount (processInvocations obs) m l = min 1 (occ obs m l)
  ∧ keyTally (processInvocations obs) m l = occ obs m l
  ∧ keyTally (recordXref t m l) m l = keyTally t m l + 1
  ∧ keyCount (recordXref t m l) m l =
      (if keyCount t m l = 0 then 1 else keyCount t m l)
  ∧ keyTally (processInvocations obs) m l ≤
      keyTally (processInvocations (obs ++ extra)) m l := by
  refine ⟨(keyCount_keyTally_processInvocations obs m l).1,
    (keyCount_keyTally_processInvocations obs m l).2, ?_, ?_, ?_⟩
  · rw [keyTally_recordXref]
    simp
  · rw [keyCount_recordXref]
    simp
  · rw [(keyCount_keyTally_processInvocations obs m l).2,
      (keyCount_keyTally_processInvocations (obs ++ extra) m l).2,
      occ_append]
    omega

/-- Claim C2: the `rundata` handler installed by `setupExitHandler`
responds to each `rundata` request with the current captured-module id
list and xref table (the full `runData`) and leaves the session state
unchanged; two consecutive `rundata` requests with no intervening
application activity return identical data, and inserting a `rundata`
request anywhere into an event sequence does not change the resulting
session state. -/
theorem rundata_snapshot_idempotent (s : RunData) (es1 es2 : List Event) :
    sessionStep s .rundataReq = (s, [.rundata s])
  ∧ runEvents s [.rundataReq, .rundataReq] = (s, [.rundata s, .rundata s])
  ∧ (runEvents s (es1 ++ Event.rundataReq :: es2)).1 =
      (runEvents s (es1 ++ es2)).1 :=
  ⟨rfl, rfl, runEvents_insert_rundata s es1 es2⟩

theorem dropWhile_ws_append_rev (m2 rest : Str)
    (hm2 : ∀ c ∈ m2, isWS c = false) :
    (m2.reverse ++ '.' :: rest).dropWhile isWS = m2.reverse ++ '.' :: rest := by
  rcases hrev : m2.reverse with _ | ⟨e, t⟩
  · simpa using dropWhile_ws_cons '.' rest (by decide)
  · have he : e ∈ m2 := by
      rw [← List.mem_reverse, hrev]
      exact List.mem_cons_self e t
    rw [List.cons_append]
    exact dropWhile_ws_cons e (t ++ '.' :: rest) (hm2 e he)

theorem splitOnChar_line (cn mi : Str) (hdot : ('.' : Char) ∉ mi) :
    (splitOnChar '.' (cn ++ '.' :: mi)).dropLast = splitOnChar '.' cn
    ∧ (splitOnChar '.' (cn ++ '.' :: mi)).getLastD [] = mi := by
  rw [splitOnChar_append_sep '.' cn mi hdot]
  constructor <;> simp

/-- Claim C6: `fetchHookConfig` splits the `hooks` payload into lines and
each line on its final `.`; a payload `"<cn>.<m1>\n<cn>.<m2>"` (class name
free of whitespace, method names free of whitespace and dots) produces the
hook configuration mapping `cn` to the accumulated method list
`[m1, m2]` — one entry per class — and the empty payload produces the
empty configuration. -/
theorem fetchHookConfig_two_lines_accumulate (cn m1 m2 : Str)
    (hcn : ∀ c ∈ cn, isWS c = false)
    (hm1 : ∀ c ∈ m1, isWS c = false ∧ ¬c = '.')
    (hm2 : ∀ c ∈ m2, isWS c = false ∧ ¬c = '.') :
    fetchHookConfig ((cn ++ '.' :: m1) ++ '\n' :: (cn ++ '.' :: m2)) =
      [(cn, [m1, m2])]
  ∧ fetchHookConfig [] = [] := by
  refine ⟨?_, rfl⟩
  have hdot1 : ('.' : Char) ∉ m1 := fun hm => (hm1 _ hm).2 rfl
  have hdot2 : ('.' : Char) ∉ m2 := fun hm => (hm2 _ hm).2 rfl
  have hnl1 : ('\n' : Char) ∉ cn ++ '.' :: m1 := by
    intro h
    rcases List.mem_append.mp h with h | h
    · have := hcn _ h
      simp [isWS] at this
    · rcases List.mem_cons.mp h with h | h
      · exact absurd h (by decide)
      · have := (hm1 _ h).1
        simp [isWS] at this
  have hnl2 : ('\n' : Char) ∉ cn ++ '.' :: m2 := by
    intro h
    rcases List.mem_append.mp h with h | h
    · have := hcn _ h
      simp [isWS] at this
    · rcases List.mem_cons.mp h with h | h
      · exact absurd h (by decide)
      · have := (hm2 _ h).1
        simp [isWS] at this
  have hne : ¬((cn ++ '.' :: m1) ++ '\n' :: (cn ++ '.' :: m2)) = [] := by
    simp
  have hfront :
      ((cn ++ '.' :: m1) ++ '\n' :: (cn ++ '.' :: m2)).dropWhile isWS =
        (cn ++ '.' :: m1) ++ '\n' :: (cn ++ '.' :: m2) := by
    rcases cn with _ | ⟨c, cs⟩
    · simpa using dropWhile_ws_cons '.'
        (m1 ++ '\n' :: ([] ++ '.' :: m2)) (by decide)
    · have hc : isWS c = false := hcn c (List.mem_cons_self c cs)
      simpa using dropWhile_ws_cons c
        ((cs ++ '.' :: m1) ++ '\n' :: ((c :: cs) ++ '.' :: m2)) hc
  have hrevshape :
      ((cn ++ '.' :: m1) ++ '\n' :: (cn ++ '.' :: m2)).reverse =
        m2.reverse ++ '.' ::
          (cn.reverse ++ '\n' :: (cn ++ '.' :: m1).reverse) := by
    simp [List.reverse_append, List.reverse_cons, List.append_assoc]
  have hback :
      ((cn ++ '.' :: m1) ++ '\n' :: (cn ++ '.' :: m2)).reverse.dropWhile
          isWS =
        ((cn ++ '.' :: m1) ++ '\n' :: (cn ++ '.' :: m2)).reverse := by
    rw [hrevshape]
    exact dropWhile_ws_append_rev m2 _ (fun c hc => (hm2 c hc).1)
  have htrim := trim_of_dropWhile _ hfront hback
  unfold fetchHookConfig
  rw [if_neg hne, htrim,
    splitOnChar_append_sep '\n' (cn ++ '.' :: m1) (cn ++ '.' :: m2) hnl2,
    splitOnChar_of_not_mem '\n' (cn ++ '.' :: m1) hnl1]
  simp only [List.singleton_append, List.foldl_cons, List.foldl_nil]
  rw [(splitOnChar_line cn m1 hdot1).1, (splitOnChar_line cn m1 hdot1).2,
    (splitOnChar_line cn m2 hdot2).1, (splitOnChar_line cn m2 hdot2).2,
    joinSep_splitOnChar]
  simp [addHook]

/-- Witness for C6: the concrete payload `"A.B.C.m1\nA.B.C.m2"` produces
exactly the configuration entry mapping `A.B.C` to `[m1, m2]`. -/
theorem fetchHookConfig_two_lines_accumulate_witness :
    (∀ c ∈ str "A.B.C", isWS c = false)
  ∧ (∀ c ∈ str "m1", isWS c = false ∧ ¬c = '.')
  ∧ (∀ c ∈ str "m2", isWS c = false ∧ ¬c = '.')
  ∧ (fetchHookConfig ((str "A.B.C" ++ '.' :: str "m1") ++
        '\n' :: (str "A.B.C" ++ '.' :: str "m2")) =
      [(str "A.B.C", [str "m1", str "m2"])]
    ∧ fetchHookConfig [] = []) :=
  ⟨by decide, by decide, by decide,
    fetchHookConfig_two_lines_accumulate (str "A.B.C") (str "m1")
      (str "m2") (by decide) (by decide) (by decide)⟩

/-- Claim C10: `captureInvokeCalls` applies the file-name classification
(the regex match) directly to the selected caller frame's reported file
name before calling through; when that frame reports a null file name, the
observation step raises a `TypeError` before the call-through, so the
original reflective invocation is never performed (the application state
is returned untouched, for every possible original operation) and no xref
is recorded — the handler is not total over all reachable frames. -/
theorem tracker_null_filename_aborts_before_callthrough
    {A V ε G : Type} (trace : List Frame) (frame : Frame)
    (m : MethodInfo) (invoke : G → A → A × Except ε V) (args : G)
    (a : A) (s : RunData)
    (hsel : trace.get? 3 = some frame) (hnull : frame.fileName = none) :
    captureInvokeCalls trace m invoke args a s =
      ⟨a, .error .typeError, s, []⟩ := by
  unfold captureInvokeCalls
  rw [hsel]
  simp only [hnull]

/-- Witness for C10: a concrete 4-frame stack whose selected frame has no
file name leaves the application state and module state untouched. -/
theorem tracker_null_filename_aborts_witness :
    ([⟨str "w", none, 0⟩, ⟨str "x", none, 0⟩, ⟨str "y", none, 0⟩,
        ⟨str "caller", none, 7⟩] : List Frame).get? 3 =
      some ⟨str "caller", none, 7⟩
  ∧ (Frame.mk (str "caller") none 7).fileName = none
  ∧ captureInvokeCalls
      [⟨str "w", none, 0⟩, ⟨str "x", none, 0⟩, ⟨str "y", none, 0⟩,
        ⟨str "caller", none, 7⟩]
      ⟨str "com.example.C", str "m", str "void()"⟩
      (fun (_ : Unit) (n : Nat) => (n + 1, (Except.ok 7 : Except Unit Nat)))
      () 5 ⟨[], []⟩ =
      ⟨5, .error .typeError, ⟨[], []⟩, []⟩ :=
  ⟨rfl, rfl,
    tracker_null_filename_aborts_before_callthrough _ _ _ _ _ _ _ rfl rfl⟩

/-- Counterexample to claim C3 as stated: with a caller frame reporting a
null file name, the reflective-invocation handler neither performs the
original invocation (the application state stays 5 although the original
would step it to 6) nor returns or propagates its result (it raises a
`TypeError` instead of the original's `ok 7`). -/
theorem interceptor_transparency_counterexample :
    (captureInvokeCalls
        [⟨str "w", none, 0⟩, ⟨str "x", none, 0⟩, ⟨str "y", none, 0⟩,
          ⟨str "caller", none, 7⟩]
        ⟨str "com.example.C", str "m", str "void()"⟩
        (fun (_ : Unit) (n : Nat) => (n + 1, (Except.ok 7 : Except Unit Nat)))
        () 5 ⟨[], []⟩).app = 5
  ∧ ((fun (_ : Unit) (n : Nat) => (n + 1, (Except.ok 7 : Except Unit Nat)))
        () 5).1 = 6
  ∧ (captureInvokeCalls
        [⟨str "w", none, 0⟩, ⟨str "x", none, 0⟩, ⟨str "y", none, 0⟩,
          ⟨str "caller", none, 7⟩]
        ⟨str "com.example.C", str "m", str "void()"⟩
        (fun (_ : Unit) (n : Nat) => (n + 1, (Except.ok 7 : Except Unit Nat)))
        () 5 ⟨[], []⟩).result = .error .typeError
  ∧ ((fun (_ : Unit) (n : Nat) => (n + 1, (Except.ok 7 : Except Unit Nat)))
        () 5).2 = .ok 7 :=
  ⟨rfl, rfl, rfl, rfl⟩

/-- Claim C3 (amended): every installed interception handler calls through
to the original operation with unmodified arguments and returns or
propagates its result or error unchanged whenever its observation step
completes: unconditionally for the `loadClass` hook and the two memory
class-loader hooks; for the reflective-invocation tracker provided the
selected caller frame exists and reports a non-null file name; and for the
FILE-strategy constructor hook provided the source file reads
successfully. -/
theorem interceptor_transparency
    {A V ε G R R2 R3 : Type} (trace : List Frame) (frame : Frame)
    (fn : Str) (m : MethodInfo) (invoke : G → A → A × Except ε V)
    (args : G) (a : A) (s : RunData)
    (cfg : HookConfig) (loadClass : Str → A → A × Except ε V)
    (className : Str) (aL : A)
    (rb : Str → Option (List Nat)) (hb : List Nat → Str)
    (initF : Str × R → A → A × Except ε V) (argsF : Str × R) (aF : A)
    (sF : RunData) (b : List Nat)
    (initA : List (List Nat) × R2 → A → A × Except ε V)
    (argsA : List (List Nat) × R2) (aA : A) (sA : RunData)
    (initS : List Nat × R3 → A → A × Except ε V) (argsS : List Nat × R3)
    (aS : A) (sS : RunData)
    (hsel : trace.get? 3 = some frame) (hfn : frame.fileName = some fn)
    (hread : rb argsF.1 = some b) :
    ((captureInvokeCalls trace m invoke args a s).app,
      (captureInvokeCalls trace m invoke args a s).result) =
      ((invoke args a).1, liftResult (invoke args a).2)
  ∧ (loadClassHook cfg loadClass className aL).1 =
      ((loadClass className aL).1, liftResult (loadClass className aL).2)
  ∧ ((fileClassLoaderHook rb hb initF argsF aF sF).app,
      (fileClassLoaderHook rb hb initF argsF aF sF).result) =
      ((initF argsF aF).1, liftResult (initF argsF aF).2)
  ∧ ((memoryClassLoaderHookArray hb initA argsA aA sA).app,
      (memoryClassLoaderHookArray hb initA argsA aA sA).result) =
      ((initA argsA aA).1, liftResult (initA argsA aA).2)
  ∧ ((memoryClassLoaderHookSingle hb initS argsS aS sS).app,
      (memoryClassLoaderHookSingle hb initS argsS aS sS).result) =
      ((initS argsS aS).1, liftResult (initS argsS aS).2) := by
  refine ⟨?_, ?_, ?_, rfl, rfl⟩
  · unfold captureInvokeCalls
    rw [hsel]
    simp only [hfn]
  · unfold loadClassHook
    cases h : (loadClass className aL).2 <;> simp [liftResult, h]
  · unfold fileClassLoaderHook sha256_fromFilePath
    simp [hread]

/-! ## Concrete sample values used by the handler witnesses -/

/-- A concrete 4-frame stack whose selected caller frame reports a
source-mapped file name. -/
def demoTrace : List Frame :=
  [⟨str "w", none, 0⟩, ⟨str "x", none, 0⟩, ⟨str "y", none, 0⟩,
   ⟨str "caller", some (str "Main.java"), 42⟩]

/-- A concrete 4-frame stack whose selected caller frame reports a
compiled-artifact file name (same calling method and line number as
`demoTrace`). -/
def demoTrace2 : List Frame :=
  [⟨str "w", none, 0⟩, ⟨str "x", none, 0⟩, ⟨str "y", none, 0⟩,
   ⟨str "caller", some (str "Main.kt"), 42⟩]

/-- A concrete reflectively-invoked method identity. -/
def demoMethod : MethodInfo := ⟨str "com.example.C", str "m", str "void()"⟩

/-- A concrete original operation: steps the application counter and
returns 7. -/
def demoOrig {G : Type} : G → Nat → Nat × Except Unit Nat :=
  fun _ n => (n + 1, .ok 7)

/-- A concrete read capability that always yields the bytes `[1, 2]`. -/
def demoRead : Str → Option (List Nat) := fun _ => some [1, 2]

/-- A concrete hash capability with constant digest `H`. -/
def demoHash : List Nat → Str := fun _ => str "H"

/-- The empty session state. -/
def demoRun : RunData := ⟨[], []⟩

/-- Witness for C3 (amended): concrete transparent runs of all five
handlers, each returning the stepped application state 6 and the
original's result 7. -/
theorem interceptor_transparency_witness :
    demoTrace.get? 3 = some ⟨str "caller", some (str "Main.java"), 42⟩
  ∧ (Frame.mk (str "caller") (some (str "Main.java")) 42).fileName =
      some (str "Main.java")
  ∧ demoRead (str "/tmp/a.dex") = some [1, 2]
  ∧ (((captureInvokeCalls demoTrace demoMethod demoOrig () 5 demoRun).app,
        (captureInvokeCalls demoTrace demoMethod demoOrig () 5
          demoRun).result) = (6, Except.ok 7)
    ∧ (loadClassHook [] demoOrig (str "com.example.C") 5).1 =
        (6, Except.ok 7)
    ∧ ((fileClassLoaderHook demoRead demoHash demoOrig
          (str "/tmp/a.dex", ()) 5 demoRun).app,
        (fileClassLoaderHook demoRead demoHash demoOrig
          (str "/tmp/a.dex", ()) 5 demoRun).result) = (6, Except.ok 7)
    ∧ ((memoryClassLoaderHookArray demoHash demoOrig ([[3]], ()) 5
          demoRun).app,
        (memoryClassLoaderHookArray demoHash demoOrig ([[3]], ()) 5
          demoRun).result) = (6, Except.ok 7)
    ∧ ((memoryClassLoaderHookSingle demoHash demoOrig ([3], ()) 5
          demoRun).app,
        (memoryClassLoaderHookSingle demoHash demoOrig ([3], ()) 5
          demoRun).result) = (6, Except.ok 7)) :=
  ⟨rfl, rfl, rfl,
    interceptor_transparency demoTrace
      ⟨str "caller", some (str "Main.java"), 42⟩ (str "Main.java")
      demoMethod demoOrig () 5 demoRun
      [] demoOrig (str "com.example.C") 5
      demoRead demoHash
      demoOrig (str "/tmp/a.dex", ()) 5 demoRun [1, 2]
      demoOrig ([[3]], ()) 5 demoRun
      demoOrig ([3], ()) 5 demoRun
      rfl rfl rfl⟩

/-- Claim C4 (amended): if reading the file-based bytecode source fails
inside the FILE-strategy capture handler, no `dex` event is emitted and no
id is recorded — but `fileClassLoaderHook` has no exception handling, so
the IOError escapes the handler before the call-through: the original
constructor is not invoked (the application state is untouched for every
original operation) and the application observes the error instead of the
constructor's result. -/
theorem file_hook_ioerror_aborts_whole_handler
    {A V ε R : Type} (rb : Str → Option (List Nat)) (hb : List Nat → Str)
    (init_method : Str × R → A → A × Except ε V) (args : Str × R) (a : A)
    (s : RunData) (hfail : rb args.1 = none) :
    fileClassLoaderHook rb hb init_method args a s =
      ⟨a, .error .ioError, s, []⟩ := by
  unfold fileClassLoaderHook sha256_fromFilePath
  simp [hfail]

/-- Witness for C4 (amended): a failing read at a concrete path leaves
the application state, session state and output untouched. -/
theorem file_hook_ioerror_witness :
    (fun (_ : Str) => (none : Option (List Nat))) (str "/tmp/a.dex") = none
  ∧ fileClassLoaderHook (fun _ => none) demoHash demoOrig
      (str "/tmp/a.dex", ()) 5 demoRun = ⟨5, .error .ioError, demoRun, []⟩ :=
  ⟨rfl, file_hook_ioerror_aborts_whole_handler _ _ _ _ _ _ rfl⟩

/-- Counterexample to claim C4 as stated: when the read fails the
call-through does not still proceed — the application state stays 5 even
though the original constructor would step it to 6, and the application
sees the IOError rather than the constructor's result. -/
theorem file_hook_ioerror_counterexample :
    (fileClassLoaderHook (fun _ => none) demoHash demoOrig
        (str "/tmp/a.dex", ()) 5 demoRun).app = 5
  ∧ (demoOrig (str "/tmp/a.dex", ()) 5).1 = 6
  ∧ (fileClassLoaderHook (fun _ => none) demoHash demoOrig
        (str "/tmp/a.dex", ()) 5 demoRun).result = .error .ioError
  ∧ (fileClassLoaderHook (fun _ => none) demoHash demoOrig
        (str "/tmp/a.dex", ()) 5 demoRun).out = [] :=
  ⟨rfl, rfl, rfl, rfl⟩

/-- Claim C5 (amended): for every FILE-strategy capture of a path whose
content reads successfully and hashes to `H`, the emitted `dex` event's
filename is the last `/`-separated segment of the path followed by `-`
and `H`, and that id is appended to the captured-module id list; `!` is
not treated as a path separator, so `/data/app/base.apk!classes2.dex`
yields `base.apk!classes2.dex-H`, not `classes2.dex-H`. -/
theorem file_hook_dex_event_filename
    {A V ε R : Type} (rb : Str → Option (List Nat)) (hb : List Nat → Str)
    (init_method : Str × R → A → A × Except ε V) (args : Str × R) (a : A)
    (s : RunData) (b : List Nat) (hread : rb args.1 = some b) :
    (fileClassLoaderHook rb hb init_method args a s).out =
      [.dex (basename args.1 ++ '-' :: hb b)]
  ∧ (fileClassLoaderHook rb hb init_method args a s).data.dexFiles =
      s.dexFiles ++ [basename args.1 ++ '-' :: hb b] := by
  unfold fileClassLoaderHook sha256_fromFilePath
  simp [hread]

/-- Witness for C5 (amended): the concrete multidex path evaluates to the
id built from its last `/`-segment. -/
theorem file_hook_dex_event_filename_witness :
    demoRead (str "/data/app/base.apk!classes2.dex") = some [1, 2]
  ∧ ((fileClassLoaderHook demoRead demoHash demoOrig
        (str "/data/app/base.apk!classes2.dex", ()) 5 demoRun).out =
      [.dex (basename (str "/data/app/base.apk!classes2.dex") ++
        '-' :: demoHash [1, 2])]
    ∧ (fileClassLoaderHook demoRead demoHash demoOrig
        (str "/data/app/base.apk!classes2.dex", ()) 5
          demoRun).data.dexFiles =
      demoRun.dexFiles ++ [basename (str "/data/app/base.apk!classes2.dex")
        ++ '-' :: demoHash [1, 2]]) :=
  ⟨rfl, file_hook_dex_event_filename _ _ _ _ _ _ _ rfl⟩

/-- Counterexample to claim C5's particular scenario: a module loaded from
`/data/app/base.apk!classes2.dex` with content hash `H` emits the dex
event with filename `base.apk!classes2.dex-H` — not `classes2.dex-H` as
the claim states, since `!` is not a path separator. -/
theorem file_hook_bang_path_counterexample :
    (fileClassLoaderHook demoRead demoHash demoOrig
        (str "/data/app/base.apk!classes2.dex", ()) 5 demoRun).out =
      [.dex (str "base.apk!classes2.dex-H")]
  ∧ ¬(str "base.apk!classes2.dex-H" = str "classes2.dex-H") :=
  ⟨by decide, by decide⟩

/-- Claim C8 (amended): for every byte buffer `b`, a FILE-strategy
capture of a path that reads to `b` and a MEMORY_SINGLE capture of `b`
emit ids with the identical hash suffix `-<hash b>` — the content hash
depends only on the bytes, not the load path — with origin labels the
file's last path segment and the fixed literal `memory` respectively; the
labels (and hence the full ids) differ whenever the file's last path
segment is not itself the literal `memory`. -/
theorem file_memory_hash_suffix_labels
    {A V ε R R3 : Type} (rb : Str → Option (List Nat))
    (hb : List Nat → Str)
    (initF : Str × R → A → A × Except ε V) (args : Str × R) (a : A)
    (s : RunData) (b : List Nat)
    (initS : List Nat × R3 → A → A × Except ε V) (argsS : List Nat × R3)
    (aS : A) (sS : RunData)
    (hread : rb args.1 = some b) (hbuf : argsS.1 = b)
    (hbn : ¬basename args.1 = str "memory") :
    (fileClassLoaderHook rb hb initF args a s).out =
      [.dex (fileOriginLabel args.1 ++ '-' :: hb b)]
  ∧ (memoryClassLoaderHookSingle hb initS argsS aS sS).out =
      [.dex (memoryOriginLabel ++ '-' :: hb b)]
  ∧ ¬fileOriginLabel args.1 = memoryOriginLabel
  ∧ ¬(fileOriginLabel args.1 ++ '-' :: hb b) =
      (memoryOriginLabel ++ '-' :: hb b) := by
  refine ⟨?_, ?_, hbn, ?_⟩
  · unfold fileClassLoaderHook sha256_fromFilePath fileOriginLabel
    simp [hread]
  · unfold memoryClassLoaderHookSingle memoryCapture sha256_fromJavaBuffer
      memoryOriginLabel
    rw [hbuf]
    rfl
  · intro h
    exact hbn (List.append_cancel_right h)

/-- Witness for C8 (amended): the path `/x/file.dex` and a memory buffer
with the same bytes yield ids `file.dex-H` and `memory-H`. -/
theorem file_memory_hash_suffix_labels_witness :
    demoRead (str "/x/file.dex") = some [1, 2]
  ∧ (([1, 2], ()) : List Nat × Unit).1 = [1, 2]
  ∧ ¬basename (str "/x/file.dex") = str "memory"
  ∧ ((fileClassLoaderHook demoRead demoHash demoOrig
        (str "/x/file.dex", ()) 5 demoRun).out =
      [.dex (fileOriginLabel (str "/x/file.dex") ++ '-' :: demoHash [1, 2])]
    ∧ (memoryClassLoaderHookSingle demoHash demoOrig ([1, 2], ()) 5
        demoRun).out =
      [.dex (memoryOriginLabel ++ '-' :: demoHash [1, 2])]
    ∧ ¬fileOriginLabel (str "/x/file.dex") = memoryOriginLabel
    ∧ ¬(fileOriginLabel (str "/x/file.dex") ++ '-' :: demoHash [1, 2]) =
        (memoryOriginLabel ++ '-' :: demoHash [1, 2])) :=
  ⟨rfl, rfl, by decide,
    file_memory_hash_suffix_labels demoRead demoHash demoOrig
      (str "/x/file.dex", ()) 5 demoRun [1, 2] demoOrig ([1, 2], ()) 5
      demoRun rfl rfl (by decide)⟩

/-- Counterexample to claim C8 as stated: for a file whose last path
segment is itself named `memory`, the FILE origin label equals the
MEMORY_SINGLE origin label, so the two captures of the same bytes emit
the very same id — the origin labels do not differ. -/
theorem file_memory_label_collision_counterexample :
    fileOriginLabel (str "/x/memory") = memoryOriginLabel
  ∧ (fileClassLoaderHook demoRead demoHash demoOrig
        (str "/x/memory", ()) 5 demoRun).out =
      (memoryClassLoaderHookSingle demoHash demoOrig ([1, 2], ()) 5
        demoRun).out :=
  ⟨by decide, by decide⟩

/-- Claim C9: the recorded location's source kind is DEBUG exactly when
the selected caller frame's reported file name matches the source-level
extension pattern `/.*\.java/` (it contains `".java"`), and BINARY
otherwise; invoking the same method from a source-mapped frame and then
from a frame whose file name is not source-level — same calling method
and line number — yields two distinct records, each with count 1. -/
theorem tracker_source_kind_classification
    {A V ε G : Type} (m : MethodInfo) (cm : Str) (pos : Int)
    (fn fn1 fn2 : Str) (t1 t2 : List Frame)
    (inv1 inv2 : G → A → A × Except ε V) (g1 g2 : G) (a1 a2 : A)
    (hsel1 : t1.get? 3 = some ⟨cm, some fn1, pos⟩)
    (hsel2 : t2.get? 3 = some ⟨cm, some fn2, pos⟩)
    (h1 : matchesJavaRegex fn1 = true)
    (h2 : matchesJavaRegex fn2 = false) :
    (sourceOfFilename fn = .debug ↔ matchesJavaRegex fn = true)
  ∧ (captureInvokeCalls t2 m inv2 g2 a2
        (captureInvokeCalls t1 m inv1 g1 a1 ⟨[], []⟩).data).data.xrefs =
      [⟨m, ⟨cm, pos, .debug⟩, 1⟩, ⟨m, ⟨cm, pos, .binary⟩, 1⟩]
  ∧ ¬(⟨m, ⟨cm, pos, .debug⟩, 1⟩ : Xref) = ⟨m, ⟨cm, pos, .binary⟩, 1⟩ := by
  have hx : xrefKeyMatches ⟨m, ⟨cm, pos, .debug⟩, 1⟩ m
      ⟨cm, pos, .binary⟩ = false := by
    rw [Bool.eq_false_iff]
    intro hb
    have h := (xrefKeyMatches_iff _ _ _).mp hb
    simpa using congrArg Location.source h.2
  refine ⟨?_, ?_, ?_⟩
  · cases hfn : matchesJavaRegex fn <;> simp [sourceOfFilename, hfn]
  · have hfirst : (captureInvokeCalls t1 m inv1 g1 a1 ⟨[], []⟩).data =
        ⟨[], [⟨m, ⟨cm, pos, .debug⟩, 1⟩]⟩ := by
      unfold captureInvokeCalls
      rw [hsel1]
      simp [sourceOfFilename, h1, recordXref_nil]
    rw [hfirst]
    unfold captureInvokeCalls
    rw [hsel2]
    simp only [sourceOfFilename, h2, Bool.false_eq_true, if_false]
    rw [recordXref_cons_nomatch _ _ _ _ hx, recordXref_nil]
  · simp

/-- Witness for C9: `Main.java` classifies as DEBUG, `Main.kt` as BINARY,
and the two invocations from the same calling method and line yield two
distinct single-count records. -/
theorem tracker_source_kind_classification_witness :
    demoTrace.get? 3 = some ⟨str "caller", some (str "Main.java"), 42⟩
  ∧ demoTrace2.get? 3 = some ⟨str "caller", some (str "Main.kt"), 42⟩
  ∧ matchesJavaRegex (str "Main.java") = true
  ∧ matchesJavaRegex (str "Main.kt") = false
  ∧ ((sourceOfFilename (str "Foo.kt") = .debug ↔
        matchesJavaRegex (str "Foo.kt") = true)
    ∧ (captureInvokeCalls demoTrace2 demoMethod demoOrig () 5
          (captureInvokeCalls demoTrace demoMethod demoOrig () 5
            ⟨[], []⟩).data).data.xrefs =
        [⟨demoMethod, ⟨str "caller", 42, .debug⟩, 1⟩,
         ⟨demoMethod, ⟨str "caller", 42, .binary⟩, 1⟩]
    ∧ ¬(⟨demoMethod, ⟨str "caller", 42, .debug⟩, 1⟩ : Xref) =
        ⟨demoMethod, ⟨str "caller", 42, .binary⟩, 1⟩) :=
  ⟨rfl, rfl, by decide, by decide,
    tracker_source_kind_classification demoMethod (str "caller") 42
      (str "Foo.kt") (str "Main.java") (str "Main.kt") demoTrace demoTrace2
      demoOrig demoOrig () () 5 5 rfl rfl (by decide) (by decide)⟩

theorem overrideClassLoaderInit_length (avail : Str → List Str → Bool)
    (ds : List LoaderDescriptor) :
    (overrideClassLoaderInit avail ds).1.length = ds.length := by
  induction ds with
  | nil => rfl
  | cons d ds ih => simp [overrideClassLoaderInit, ih]

/-- Claim C7: registration is attempted for every registry descriptor
independently — the outcome list carries one entry per descriptor; a
descriptor whose constructor overload fails to resolve is caught by
`tryOverride`, logged (`Unable to override <debugString>`) and skipped,
and a descriptor whose target type was not resolved (`tryJavaUse`
returned null) returns early and is skipped silently; in both cases the
outcomes and logs of the remaining descriptors are exactly those of
running the loop without the failing descriptor — one missing API never
prevents the remaining registrations. -/
theorem registry_per_descriptor_isolation
    (avail : Str → List Str → Bool) (d1 d2 : LoaderDescriptor)
    (ds es : List LoaderDescriptor)
    (hfail : attemptInstall avail d1 = .error ())
    (hnull : d2.classLoader = none) :
    (overrideClassLoaderInit avail (d1 :: ds)).1 =
      none :: (overrideClassLoaderInit avail ds).1
  ∧ (overrideClassLoaderInit avail (d1 :: ds)).2 =
      (str "Unable to override " ++ d1.debugString) ::
        (overrideClassLoaderInit avail ds).2
  ∧ (overrideClassLoaderInit avail (d2 :: ds)).1 =
      some none :: (overrideClassLoaderInit avail ds).1
  ∧ (overrideClassLoaderInit avail (d2 :: ds)).2 =
      (overrideClassLoaderInit avail ds).2
  ∧ (overrideClassLoaderInit avail es).1.length = es.length := by
  refine ⟨?_, ?_, ?_, ?_, overrideClassLoaderInit_length avail es⟩
  · simp [overrideClassLoaderInit, tryOverride, hfail]
  · simp [overrideClassLoaderInit, tryOverride, hfail]
  · simp [overrideClassLoaderInit, tryOverride, attemptInstall, hnull]
  · simp [overrideClassLoaderInit, tryOverride, attemptInstall, hnull]

/-- The registry as resolved on a runtime where every loader type exists
(used by the C7 witness). -/
def demoRegistryAll : List LoaderDescriptor := registry (fun n => some n)

/-- The first registry descriptor with its loader type resolved. -/
def descResolved : LoaderDescriptor :=
  demoRegistryAll.headD ⟨none, [], .file, []⟩

/-- The first registry descriptor on a runtime with no loader types. -/
def descNullLoader : LoaderDescriptor :=
  (registry (fun _ => none)).headD ⟨none, [], .file, []⟩

/-- Witness for C7: under an availability map rejecting every overload,
the resolved head descriptor is logged and skipped, a null-loader head
descriptor is skipped silently, the tail's outcomes are unaffected, and
the full 9-entry registry yields one outcome per descriptor. -/
theorem registry_per_descriptor_isolation_witness :
    attemptInstall (fun _ _ => false) descResolved = .error ()
  ∧ descNullLoader.classLoader = none
  ∧ ((overrideClassLoaderInit (fun _ _ => false)
        (descResolved :: [descNullLoader])).1 =
      none :: (overrideClassLoaderInit (fun _ _ => false)
        [descNullLoader]).1
    ∧ (overrideClassLoaderInit (fun _ _ => false)
        (descResolved :: [descNullLoader])).2 =
      (str "Unable to override " ++ descResolved.debugString) ::
        (overrideClassLoaderInit (fun _ _ => false) [descNullLoader]).2
    ∧ (overrideClassLoaderInit (fun _ _ => false)
        (descNullLoader :: [descNullLoader])).1 =
      some none :: (overrideClassLoaderInit (fun _ _ => false)
        [descNullLoader]).1
    ∧ (overrideClassLoaderInit (fun _ _ => false)
        (descNullLoader :: [descNullLoader])).2 =
      (overrideClassLoaderInit (fun _ _ => false) [descNullLoader]).2
    ∧ (overrideClassLoaderInit (fun _ _ => false)
        demoRegistryAll).1.length = demoRegistryAll.length) :=
  ⟨rfl, rfl,
    registry_per_descriptor_isolation (fun _ _ => false) descResolved
      descNullLoader [descNullLoader] demoRegistryAll rfl rfl⟩

end Dexcaliburn
